import Mathlib

/-!
# Verification of the docker-compose fleet dashboard core

Shallow embedding, in Lean, of the status-reconciliation and
process-orchestration engine of the dashboard (Rust sources under `src/`).
External subprocess results (docker probes, command exit statuses, streamed
output, `docker inspect` lookups) are passed in as explicit oracle
parameters; everything else is translated from the Rust source function by
function.  Machine floats of the progress extractor are modelled by exact
unnormalised fractions over `Nat` (every quantity there is non-negative, and
the inputs evaluated here are exactly representable in `f64`, so the models
agree with the floats at those inputs); Rust's Unicode `to_lowercase` /
`is_alphanumeric` / `trim` are modelled by Lean's ASCII `Char.toLower` /
`Char.isAlphanum` / ASCII whitespace, which agree on every string
considered below.  String routines are re-implemented structurally over
`List Char` (the `String.data` view) so that every definition evaluates
inside the kernel.
-/

namespace DockerTui

/-! ## String primitives (models of the Rust `str` methods used by the core) -/

/-- ASCII whitespace, the model of Rust's `char::is_whitespace` on the
inputs considered here. -/
def wsChar (c : Char) : Bool :=
  c = ' ' || c = '\t' || c = '\n' || c = '\r'

/-- Rust `str::trim` on the character list. -/
def trimL (l : List Char) : List Char :=
  ((l.dropWhile wsChar).reverse.dropWhile wsChar).reverse

/-- Rust `str::trim`. -/
def strTrim (s : String) : String := ⟨trimL s.data⟩

/-- Rust `str::trim_matches` with a character predicate `p` (trims matching
characters from both ends). -/
def trimMatches (p : Char → Bool) (l : List Char) : List Char :=
  ((l.dropWhile p).reverse.dropWhile p).reverse

/-- Split a character list at every character satisfying `p`, keeping empty
pieces (the splitter characters are dropped). -/
def splitChars (p : Char → Bool) : List Char → List (List Char)
  | [] => [[]]
  | c :: rest =>
    let r := splitChars p rest
    if p c then [] :: r
    else
      match r with
      | [] => [[c]]
      | h :: t => (c :: h) :: t

/-- Rust `line.splitn(4, '\t')` followed by four `next().unwrap_or("")`:
at most four fields, the fourth keeping any further tab characters. -/
def splitn4Tab (line : String) : String × String × String × String :=
  match splitChars (· = '\t') line.data with
  | [] => ("", "", "", "")
  | [a] => (⟨a⟩, "", "", "")
  | [a, b] => (⟨a⟩, ⟨b⟩, "", "")
  | [a, b, c] => (⟨a⟩, ⟨b⟩, ⟨c⟩, "")
  | a :: b :: c :: rest =>
    (⟨a⟩, ⟨b⟩, ⟨c⟩, ⟨(rest.intersperse ['\t']).flatten⟩)

/-- Rust `str::contains` for a literal pattern (`needle`), on char lists. -/
def containsSub (needle : List Char) : List Char → Bool
  | [] => needle.isEmpty
  | c :: rest => needle.isPrefixOf (c :: rest) || containsSub needle rest

/-- Rust `str::contains` for a literal pattern. -/
def strContains (s pat : String) : Bool := containsSub pat.data s.data

/-- Rust `str::starts_with` for a literal pattern. -/
def strStartsWith (s pre : String) : Bool := pre.data.isPrefixOf s.data

/-- Rust `str::ends_with` for a literal pattern. -/
def strEndsWith (s suf : String) : Bool := suf.data.isSuffixOf s.data

/-- Rust `str::is_empty`. -/
def strIsEmpty (s : String) : Bool := s.data.isEmpty

/-- Rust `str::split_once` for a non-empty literal pattern: the pieces
before and after the first occurrence of `needle`, or `none`. -/
def splitOnceSub (needle : List Char) : List Char → Option (List Char × List Char)
  | [] => if needle.isEmpty then some ([], []) else none
  | c :: rest =>
    if needle.isPrefixOf (c :: rest) then
      some ([], (c :: rest).drop needle.length)
    else
      match splitOnceSub needle rest with
      | some (l, r) => some (c :: l, r)
      | none => none

/-- Rust `str::split_whitespace`: split on whitespace runs, dropping empty
pieces. -/
def splitWhitespace (l : List Char) : List (List Char) :=
  (splitChars wsChar l).filter (fun p => !p.isEmpty)

/-- Rust `str::to_lowercase` (ASCII model). -/
def toLowerStr (s : String) : String := ⟨s.data.map Char.toLower⟩

/-- Lexicographic comparison of character lists by code point.  Rust's
`Ord` on `String` is byte-lexicographic on UTF-8, and UTF-8 byte order
coincides with code-point order. -/
def lexLeB : List Char → List Char → Bool
  | [], _ => true
  | _ :: _, [] => false
  | a :: as, b :: bs =>
    if a.toNat = b.toNat then lexLeB as bs else decide (a.toNat < b.toNat)

/-- The `Ord`-induced `≤` on strings used by `Vec::<String>::sort`. -/
def strLe (a b : String) : Prop := lexLeB a.data b.data = true

instance : DecidableRel strLe :=
  fun a b => inferInstanceAs (Decidable (lexLeB a.data b.data = true))

/-- The case-insensitive comparison of the discovery sort
(`src/app/init.rs` line 112): compare lowercased names. -/
def lowerLe (a b : String) : Prop :=
  lexLeB (toLowerStr a).data (toLowerStr b).data = true

instance : DecidableRel lowerLe :=
  fun a b => inferInstanceAs (Decidable (lexLeB (toLowerStr a).data (toLowerStr b).data = true))

/-- Generic association-list lookup with decidable string equality (the
model of `HashMap::get`). -/
def alookup {α : Type} (key : String) : List (String × α) → Option α
  | [] => none
  | (k, v) :: rest => if k = key then some v else alookup key rest

/-- Association-list insert-or-replace (the model of `HashMap::insert`). -/
def ainsert {α : Type} (key : String) (v : α) : List (String × α) → List (String × α)
  | [] => [(key, v)]
  | (k, v') :: rest => if k = key then (key, v) :: rest else (k, v') :: ainsert key v rest

/-! ## Data model (`src/status.rs`) -/

/-- Status enumeration from `src/status.rs`: the closed per-project status
enumeration. -/
inductive Status where
  | Running
  | Stopped
  | Starting
  | Stopping
  | Pulling
  | Error
  | DaemonNotRunning
deriving DecidableEq, Repr

/-- ToastState from `src/status.rs`: notification severities. -/
inductive ToastState where
  | Success
  | Warning
  | Error
  | Info
deriving DecidableEq, Repr

/-! ## Event listener (`src/docker/events.rs`) -/

/-- Per-project mutable targets handed to the event listener
(`ProjectEventTargets` in `src/docker/events.rs`): status cell, events text,
pull-progress cell. -/
structure ProjTarget where
  status : Status
  events : String
  pullProgress : Option String
deriving DecidableEq, Repr

/-- Model of `normalize_template_value` in `src/docker/events.rs`: the
Go-template placeholder `<no value>` (and the empty string) normalises to
empty. -/
def normalize_template_value (value : String) : String :=
  if strIsEmpty value || value = "<no value>" then "" else value

/-- The `match action` of `handle_event_line` (`src/docker/events.rs`
lines 99–120) computing the candidate next status; `none` means the action
is ignored for status purposes. -/
def nextStatusFor (cur : Status) (action exitCode : String) : Option Status :=
  if action = "create" ∨ action = "restart" ∨ action = "unpause" then
    some Status.Starting
  else if action = "start" then
    some Status.Running
  else if action = "stop" ∨ action = "destroy" ∨ action = "pause" then
    some Status.Stopped
  else if action = "die" ∨ action = "kill" then
    if cur = Status.Stopping ∨ cur = Status.Stopped ∨ exitCode = "0" then
      some Status.Stopped
    else
      some Status.Error
  else if strStartsWith action "health_status: " then
    if strEndsWith action "healthy" then some Status.Running
    else if strEndsWith action "unhealthy" then some Status.Error
    else none
  else none

/-- Model of `append_event_log` in `src/docker/events.rs`. -/
def append_event_log (events : String) (project container_name action : String) : String :=
  let scope := if strIsEmpty container_name then project else container_name
  events ++ "[event] " ++ scope ++ " " ++ action ++ "\n"

/-- The status/pull-progress update block of `handle_event_line`
(`src/docker/events.rs` lines 97–131): clear pull-progress whenever a
transition was computed and it is not `Pulling`, then install the new status
only if the current status is not `Pulling` or the new one is
`Running`/`Error`. -/
def applyEventStatus (t : ProjTarget) (action exitCode : String) : ProjTarget :=
  match nextStatusFor t.status action exitCode with
  | none => t
  | some next =>
    let pp := if next ≠ Status.Pulling then none else t.pullProgress
    let st :=
      if t.status ≠ Status.Pulling ∨ next = Status.Running ∨ next = Status.Error then
        next
      else
        t.status
    { t with pullProgress := pp, status := st }

/-- Model of `resolve_project_from_container` (`src/docker/events.rs`
lines 143–152): empty container names resolve to nothing, otherwise a
`docker inspect` of the compose-project label, modelled by the oracle
`inspectLabel`. -/
def resolve_project_from_container (inspectLabel : String → Option String)
    (container_name : String) : Option String :=
  if strIsEmpty container_name then none else inspectLabel container_name

/-- Model of `handle_event_line` (`src/docker/events.rs` lines 70–133) over
an association-list registry.  `resolve` stands for the `docker inspect`
label lookup used by `resolve_project_from_container`, and `runtimeLine`
for the full line that `append_runtime_details` would push for a container
(its text comes from two further `docker inspect` calls); both are
external-world oracles. -/
def handle_event_line (resolve : String → Option String)
    (runtimeLine : String → String)
    (line : String) (targets : List (String × ProjTarget)) :
    List (String × ProjTarget) :=
  let (action, projectRaw, container_name, exit_code) := splitn4Tab line
  let action := strTrim action
  let project := normalize_template_value (strTrim projectRaw)
  let container_name := strTrim container_name
  let exit_code := strTrim exit_code
  if strIsEmpty action then targets
  else
    let project :=
      if strIsEmpty project then
        (resolve_project_from_container resolve container_name).getD ""
      else project
    if strIsEmpty project then targets
    else
      match alookup project targets with
      | none => targets
      | some t =>
        let t := { t with events := append_event_log t.events project container_name action }
        let t :=
          if (action = "start" ∨ action = "restart" ∨ action = "unpause")
              ∧ ¬ strIsEmpty container_name then
            { t with events := t.events ++ runtimeLine container_name }
          else t
        let t := applyEventStatus t action exit_code
        targets.map (fun p => if p.1 = project then (p.1, t) else p)

/-! ## Pull-progress extractor (`src/app/services.rs` lines 338–427) -/

/-- An exact non-negative fraction `num / den` (`den` positive by
construction): the model of the `f64` byte sizes of the progress parser. -/
structure SizeQ where
  num : Nat
  den : Nat
deriving DecidableEq, Repr

/-- Numeric value of a digit run (most significant first). -/
def digitsVal (l : List Char) : Nat :=
  l.foldl (fun acc c => 10 * acc + (c.toNat - 48)) 0

/-- Model of Rust `str::parse::<f64>` restricted to strings of ASCII digits
and dots (the only shapes reaching it in `parse_size_to_bytes`): at most one
dot, at least one digit, value read exactly. -/
def parseDecQ (l : List Char) : Option SizeQ :=
  if ¬ l.all (fun c => c.isDigit || c = '.') then none
  else
    match splitChars (· = '.') l with
    | [i] => if i.isEmpty then none else some ⟨digitsVal i, 1⟩
    | [i, f] =>
      if i.isEmpty && f.isEmpty then none
      else some ⟨digitsVal i * 10 ^ f.length + digitsVal f, 10 ^ f.length⟩
    | _ => none

/-- The unit multiplier table of `parse_size_to_bytes`
(`src/app/services.rs` lines 413–424). -/
def unitMultiplier (unit : String) : Option Nat :=
  if unit = "" ∨ unit = "b" then some 1
  else if unit = "kb" then some 1000
  else if unit = "mb" then some 1000000
  else if unit = "gb" then some 1000000000
  else if unit = "tb" then some 1000000000000
  else if unit = "kib" then some 1024
  else if unit = "mib" then some 1048576
  else if unit = "gib" then some 1073741824
  else if unit = "tib" then some 1099511627776
  else none

/-- Model of `parse_size_to_bytes` (`src/app/services.rs` lines 396–427):
trim to alphanumeric-or-dot, split the leading digits-and-dots number from
the unit suffix, parse both. -/
def parse_size_to_bytes (token : List Char) : Option SizeQ :=
  let cleaned := trimMatches (fun c => !(c.isAlphanum || c = '.')) token
  if cleaned.isEmpty then none
  else
    let numPart := cleaned.takeWhile (fun c => c.isDigit || c = '.')
    let unitPart := cleaned.dropWhile (fun c => c.isDigit || c = '.')
    match parseDecQ numPart with
    | none => none
    | some q =>
      match unitMultiplier ⟨unitPart.map Char.toLower⟩ with
      | none => none
      | some m => some ⟨q.num * m, q.den⟩

/-- The token scan of `extract_size_ratio` (`src/app/services.rs`
lines 382–394): the first whitespace token whose cleaned form contains a
slash decides; a parse failure of either side aborts the whole extraction
(the `?` operator). -/
def extract_size_ratio_go : List (List Char) → Option (SizeQ × SizeQ)
  | [] => none
  | tok :: rest =>
    let cleaned := trimMatches (fun c => !(c.isAlphanum || c = '.' || c = '/')) tok
    match splitOnceSub ['/'] cleaned with
    | some (l, r) =>
      match parse_size_to_bytes l, parse_size_to_bytes r with
      | some d, some t => some (d, t)
      | _, _ => none
    | none => extract_size_ratio_go rest

/-- Model of `extract_size_ratio` (`src/app/services.rs` lines 382–394). -/
def extract_size_ratio (text : List Char) : Option (SizeQ × SizeQ) :=
  extract_size_ratio_go (splitWhitespace text)

/-- The percentage computation of the ratio branch
(`src/app/services.rs` line 360): `((done/total)*100).round().clamp(0,100)`
as an exact natural number.  All quantities are non-negative, so `round`
(half away from zero on `f64`) is `⌊x + 1/2⌋`, here as a floor division,
and the lower clamp is vacuous. -/
def ratioPercent (d t : SizeQ) : Nat :=
  min 100 ((2 * (d.num * t.den) * 100 + d.den * t.num) / (2 * (d.den * t.num)))

/-- The fixed keyword fallback list of `extract_pull_progress`
(`src/app/services.rs` lines 365–373). -/
def pullKeywords : List String :=
  ["Waiting", "Pulling fs layer", "Downloading", "Extracting",
   "Download complete", "Pull complete", "Already exists"]

/-- Model of `extract_pull_progress` (`src/app/services.rs`
lines 338–380): strip up to the first colon-space; reuse a `%`-suffixed
token verbatim; else the size-ratio percentage labelled by phase; else the
first matching fixed keyword. -/
def extract_pull_progress (line : String) : Option String :=
  let trimmed := trimL line.data
  if trimmed.isEmpty then none
  else
    let rhs :=
      match splitOnceSub [':', ' '] trimmed with
      | some (_, r) => r
      | none => trimmed
    match (splitWhitespace rhs).find? (fun tok => ['%'].isSuffixOf tok) with
    | some percentTok => some ⟨percentTok⟩
    | none =>
      let ratioHit : Option String :=
        match extract_size_ratio rhs with
        | some (d, t) =>
          if 0 < t.num then
            let phase :=
              if containsSub "Extracting".data rhs then "Extracting" else "Downloading"
            some (phase ++ " " ++ toString (ratioPercent d t) ++ "%")
          else none
        | none => none
      match ratioHit with
      | some r => some r
      | none => pullKeywords.find? (fun k => containsSub k.data rhs)

/-! ## Command runner (`src/app/services.rs` lines 14–336) -/

/-- The synchronous result of a `start_service` / `stop_service` call: the
final toast, whether a background worker was spawned, and the service cell
fields after the synchronous part (`logs` is only ever touched by the
worker). -/
structure SyncDecision where
  toast : Option (ToastState × String)
  spawned : Bool
  status : Status
  pullProgress : Option String
  logs : String
deriving DecidableEq, Repr

/-- Model of the synchronous guard phase of `start_service`
(`src/app/services.rs` lines 84–136 and 231–236): `serviceActive` is the
`systemctl is-active` probe, `daemonRunning` the cached
`docker_daemon_running` flag, `probe` the fresh
`DockerClient::get_status(name)` result, and `cached`/`pp`/`logs0` the
service cell before the call. -/
def start_service (name : String) (serviceActive daemonRunning : Bool)
    (probe cached : Status) (pp : Option String) (logs0 : String) : SyncDecision :=
  if !serviceActive then
    ⟨some (ToastState.Error, "Cannot start service: Docker service not running"),
      false, cached, pp, logs0⟩
  else if !daemonRunning then
    ⟨some (ToastState.Error, "Cannot start service: Docker daemon not responding"),
      false, cached, pp, logs0⟩
  else if probe = Status.Running then
    ⟨some (ToastState.Warning, name ++ " already running"), false, cached, pp, logs0⟩
  else if cached = Status.Pulling ∨ cached = Status.Starting ∨ cached = Status.Stopping then
    ⟨some (ToastState.Warning, name ++ " is busy, wait for operation to finish"),
      false, cached, pp, logs0⟩
  else
    ⟨some (ToastState.Success, "Starting " ++ name), true,
      Status.Pulling, some "queued", logs0⟩

/-- The service cell slice a background worker mutates. -/
structure WorkerSt where
  status : Status
  logs : String
  pullProgress : Option String
deriving DecidableEq, Repr

/-- Outcome of the pull stage as observed by the worker
(`src/app/services.rs` lines 144–196): either every image was already
present (pull skipped), or the pull command ran — `Except.error` models a
spawn failure (no header line), `Except.ok b` a streamed run exiting with
success flag `b`.  `streamed` is the combined output pushed into the log,
and `streamProgress` the pull-progress cell value left by the per-line
extractor callback during the stream. -/
inductive PullOutcome where
  | skipped
  | ran (result : Except String Bool) (streamed : String) (streamProgress : Option String)
deriving Repr

/-- Model of the up stage of the `start_service` worker
(`src/app/services.rs` lines 204–228): clear pull-progress, set `Starting`,
run `up -d` (result `upRes`, streamed output `upStream`), then on a
successful exit re-probe (`probe2`) and promote to `Running` only if the
probe confirms it; on failure set `Error` with a diagnostic line. -/
def up_phase (upRes : Except String Bool) (upStream : String) (probe2 : Status)
    (s : WorkerSt) : WorkerSt :=
  let s := { s with pullProgress := none, status := Status.Starting }
  match upRes with
  | Except.ok true =>
    let s := { s with logs := s.logs ++ "Up output:\n" ++ upStream }
    if probe2 = Status.Running then { s with status := Status.Running } else s
  | Except.ok false =>
    { s with
        logs := s.logs ++ "Up output:\n" ++ upStream
          ++ "Up failed: command exited with non-zero status\n",
        status := Status.Error }
  | Except.error e =>
    { s with logs := s.logs ++ "Up failed: " ++ e ++ "\n", status := Status.Error }

/-- Model of the whole `start_service` worker thread
(`src/app/services.rs` lines 138–229): clear the log, run or skip the pull
stage, stop with `Error` on pull failure, otherwise run the up stage. -/
def start_service_worker (pull : PullOutcome) (upRes : Except String Bool)
    (upStream : String) (probe2 : Status) (s : WorkerSt) : WorkerSt :=
  let s := { s with logs := "" }
  let (pullSuccess, s) :=
    match pull with
    | PullOutcome.skipped =>
      (true, { s with logs := s.logs ++ "All images already present, skipping pull.\n",
                      pullProgress := some "cached" })
    | PullOutcome.ran (Except.ok b) streamed streamProgress =>
      (b, { s with logs := s.logs ++ "Pull output:\n" ++ streamed,
                   pullProgress := streamProgress })
    | PullOutcome.ran (Except.error e) _ _ =>
      (false, { s with logs := s.logs ++ "Pull failed: " ++ e ++ "\n" })
  if !pullSuccess then
    { s with pullProgress := none, status := Status.Error }
  else
    up_phase upRes upStream probe2 s

/-- One observable step of the synchronous part of `stop_service`, in
program order. -/
inductive StopEffect where
  | toast (k : ToastState) (msg : String)
  | setStatus (s : Status)
  | setPullProgress (p : Option String)
  | clearLiveLogs
  | killFollowChild
  | waitFollowChild
  | spawnDownWorker
deriving DecidableEq, Repr

/-- Model of the synchronous part of `stop_service`
(`src/app/services.rs` lines 239–323) as its ordered effect trace.
`followChildPresent` says whether `logs_child` currently holds a follow
subprocess handle.  The kill (line 287–289) is a bare `child.kill()` with
no `wait`; the down command runs inside the worker spawned by
`spawnDownWorker`. -/
def stop_service (name : String) (serviceActive daemonRunning : Bool)
    (probe cached : Status) (followChildPresent : Bool) : List StopEffect :=
  if !serviceActive then
    [StopEffect.toast ToastState.Error "Cannot stop service: Docker service not running"]
  else if !daemonRunning then
    [StopEffect.toast ToastState.Error "Cannot stop service: Docker daemon not responding"]
  else if probe ≠ Status.Running then
    [StopEffect.toast ToastState.Warning (name ++ " not running")]
  else if cached = Status.Pulling ∨ cached = Status.Starting ∨ cached = Status.Stopping then
    [StopEffect.toast ToastState.Warning (name ++ " is busy, wait for operation to finish")]
  else
    [StopEffect.setStatus Status.Stopping, StopEffect.setPullProgress none,
      StopEffect.clearLiveLogs]
    ++ (if followChildPresent then [StopEffect.killFollowChild] else [])
    ++ [StopEffect.spawnDownWorker,
        StopEffect.toast ToastState.Success ("Stopping " ++ name)]

/-! ## Reconciler (`src/app/services.rs` lines 15–82, `src/app/events.rs`) -/

/-- One service cell as seen by the reconciler. -/
structure RSvc where
  name : String
  status : Status
  pullProgress : Option String
deriving DecidableEq, Repr

/-- The slice of `App` state that `refresh_statuses` touches
(`src/app/state.rs`). -/
structure AppRS where
  services : List RSvc
  firstStatusCheck : Bool
  daemonProbeCooldownTicks : Nat
  dockerDaemonRunning : Bool
  eventListenerRunning : Bool
deriving DecidableEq, Repr

/-- The transitional statuses tested by `refresh_statuses`
(`src/app/services.rs` lines 29–34). -/
def isTransitioning (s : Status) : Bool :=
  s = Status.Pulling || s = Status.Starting || s = Status.Stopping

/-- Per-service reconciliation against a batch probe result
(`src/app/services.rs` lines 46–75): transitional states only confirm
forward, others adopt the observed value. -/
def reconcileCell (batch : String → Option Status) (allStopped : String → Bool)
    (s : RSvc) : RSvc :=
  match batch s.name with
  | none => s
  | some actual =>
    match s.status with
    | Status.Pulling =>
      if actual = Status.Running then
        { s with pullProgress := none, status := Status.Running }
      else s
    | Status.Starting =>
      if actual = Status.Running then
        { s with pullProgress := none, status := Status.Running }
      else s
    | Status.Stopping =>
      if actual = Status.Stopped && allStopped s.name then
        { s with pullProgress := none, status := Status.Stopped }
      else s
    | _ => { s with status := actual }

/-- Model of `start_event_listeners` (`src/app/events.rs` lines 7–37)
restricted to the listener flag: a no-op unless the daemon is running and no
listener runs yet. -/
def start_event_listeners_flag (daemonRunning listenerRunning : Bool) : Bool :=
  if listenerRunning then listenerRunning
  else if !daemonRunning then listenerRunning
  else true

/-- Model of `refresh_statuses` (`src/app/services.rs` lines 15–82).
`probe` is the result `docker_service_active() && docker_info_ok()` would
return if probed this tick; `batch` the `get_batch_statuses` map; and
`allStopped` the per-project `all_containers_stopped` check. -/
def refresh_statuses (probe : Bool) (batch : String → Option Status)
    (allStopped : String → Bool) (a : AppRS) : AppRS :=
  let shouldProbe :=
    a.firstStatusCheck || a.daemonProbeCooldownTicks == 0 || !a.dockerDaemonRunning
  let cooldown := if shouldProbe then 60 else a.daemonProbeCooldownTicks
  let daemonRunning := if shouldProbe then probe else a.dockerDaemonRunning
  let daemonChanged := daemonRunning != a.dockerDaemonRunning
  let hasTransitioning := a.services.any (fun s => isTransitioning s.status)
  let a1 := { a with daemonProbeCooldownTicks := cooldown,
                     dockerDaemonRunning := daemonRunning }
  let a2 :=
    if !a1.dockerDaemonRunning then
      { a1 with
          eventListenerRunning := false,
          services := a1.services.map (fun s =>
            { s with status := Status.DaemonNotRunning, pullProgress := none }) }
    else if a1.firstStatusCheck || daemonChanged || hasTransitioning then
      { a1 with
          services := a1.services.map (reconcileCell batch allStopped),
          firstStatusCheck := false }
    else a1
  if a2.dockerDaemonRunning && !a2.eventListenerRunning then
    { a2 with
        eventListenerRunning :=
          start_event_listeners_flag a2.dockerDaemonRunning a2.eventListenerRunning }
  else a2

/-! ## Daemon controller (`src/app/daemon.rs`) -/

/-- The statuses drained before a daemon stop/restart
(`src/app/daemon.rs` lines 53–59). -/
def drainEligible (s : Status) : Bool :=
  s = Status.Running || s = Status.Starting || s = Status.Stopping || s = Status.Pulling

/-- The drain worklist of `stop_all_services` (`src/app/daemon.rs`
lines 50–68): the names of all `Running`/transitional services, sorted
(`Vec::sort` modelled by a stable comparison sort over the same total
order). -/
def servicesToStop (svcs : List (String × Status)) : List String :=
  ((svcs.filter (fun p => drainEligible p.2)).map Prod.fst).insertionSort strLe

/-- The drain loop of `stop_all_services` (`src/app/daemon.rs`
lines 70–83): run `down` for each name in order, stop at the first failure;
returns the down commands actually issued and the error, if any.  `down`
maps a name to its `run_capture(down_cmd)` outcome (`Except.error` a spawn
error, `Except.ok b` an exit with success flag `b`). -/
def drainGo (down : String → Except String Bool) : List String → List String × Option String
  | [] => ([], none)
  | n :: rest =>
    match down n with
    | Except.ok true =>
      let (issued, err) := drainGo down rest
      (n :: issued, err)
    | Except.ok false => ([n], some ("Failed to stop service " ++ n))
    | Except.error e => ([n], some ("Error stopping service " ++ n ++ ": " ++ e))

/-- Result of `stop_all_services`: the returned `Result<usize, String>` and
the list of down commands issued. -/
structure DrainResult where
  result : Except String Nat
  downsIssued : List String
deriving Repr

/-- Model of `stop_all_services` (`src/app/daemon.rs` lines 49–87). -/
def stop_all_services (svcs : List (String × Status))
    (down : String → Except String Bool) : DrainResult :=
  let toStop := servicesToStop svcs
  if toStop.isEmpty then ⟨Except.ok 0, []⟩
  else
    let issued := (drainGo down toStop).1
    match (drainGo down toStop).2 with
    | some e => ⟨Except.error e, issued⟩
    | none => ⟨Except.ok toStop.length, issued⟩

/-- Result of a daemon stop/restart request: whether the privileged
`systemctl` command was invoked, the final toast, and the down commands
issued while draining. -/
structure DaemonActionResult where
  privilegedInvoked : Bool
  toast : Option (ToastState × String)
  downsIssued : List String
deriving DecidableEq, Repr

/-- Model of `stop_daemon` (`src/app/daemon.rs` lines 131–171).
`passwordEmpty` is the `require_daemon_password` guard; `priv` the outcome
of the privileged `daemon::stop` call (consulted only if reached).
Intermediate `Info` toasts are overwritten by the final one. -/
def stop_daemon (passwordEmpty : Bool) (svcs : List (String × Status))
    (down : String → Except String Bool) (privResult : Except String Unit) :
    DaemonActionResult :=
  if passwordEmpty then
    ⟨false, some (ToastState.Warning, "Enter sudo password to stop Docker daemon"), []⟩
  else
    let d := stop_all_services svcs down
    match d.result with
    | Except.error e =>
      ⟨false, some (ToastState.Error, "Failed to stop services: " ++ e), d.downsIssued⟩
    | Except.ok _ =>
      match privResult with
      | Except.ok _ =>
        ⟨true, some (ToastState.Success, "Docker daemon stopped (services stopped first)"),
          d.downsIssued⟩
      | Except.error m => ⟨true, some (ToastState.Error, m), d.downsIssued⟩

/-- Model of `restart_daemon` (`src/app/daemon.rs` lines 89–129); identical
drain-first structure with the restart strings. -/
def restart_daemon (passwordEmpty : Bool) (svcs : List (String × Status))
    (down : String → Except String Bool) (privResult : Except String Unit) :
    DaemonActionResult :=
  if passwordEmpty then
    ⟨false, some (ToastState.Warning, "Enter sudo password to restart Docker daemon"), []⟩
  else
    let d := stop_all_services svcs down
    match d.result with
    | Except.error e =>
      ⟨false, some (ToastState.Error, "Failed to stop services: " ++ e), d.downsIssued⟩
    | Except.ok _ =>
      match privResult with
      | Except.ok _ =>
        ⟨true,
          some (ToastState.Success, "Docker daemon restarted (services stopped first)"),
          d.downsIssued⟩
      | Except.error m => ⟨true, some (ToastState.Error, m), d.downsIssued⟩

/-! ## Batch status query (`src/docker/client.rs` lines 76–131) -/

/-- Model of `validate_service_name` (`src/docker/client.rs`
lines 128–131).  Rust's `char::is_alphanumeric` is Unicode; the ASCII model
agrees on every name considered here. -/
def validate_service_name (name : String) : Bool :=
  name.data.all (fun c => c.isAlphanum || c = '-' || c = '_')

/-- Decidable list membership for strings (the model of
`Vec::contains`). -/
def namesContain (names : List String) (n : String) : Bool :=
  names.any (fun m => m = n)

/-- The third tab-separated field of a `docker ps` batch line (the
compose-project label), when the line has at least three fields. -/
def thirdField (line : String) : Option String :=
  match splitChars (· = '\t') line.data with
  | _ :: _ :: t :: _ => some ⟨t⟩
  | _ => none

/-- The per-line update of the batch loop (`src/docker/client.rs`
lines 100–115): lines with at least three tab-separated fields whose
project label is a known name overwrite that name's status — `Running` when
the status field starts with `Up`, else `Stopped`. -/
def batchLineUpdate (names : List String) (m : List (String × Status))
    (line : String) : List (String × Status) :=
  match splitChars (· = '\t') line.data with
  | _ :: statusStr :: projectName :: _ =>
    let pn : String := ⟨projectName⟩
    if namesContain names pn then
      ainsert pn
        (if "Up".data.isPrefixOf statusStr then Status.Running else Status.Stopped) m
    else m
  | _ => m

/-- Model of `get_batch_statuses` (`src/docker/client.rs` lines 76–125).
`psOut` is the single fleet-wide `docker ps` call: `none` a spawn error,
`some lines` its stdout lines.  Invalid names are seeded `Error`, valid
ones `Stopped`, then the output lines are folded in. -/
def get_batch_statuses (names : List String) (psOut : Option (List String)) :
    List (String × Status) :=
  let seeded := names.foldl (fun m name =>
    ainsert name
      (if validate_service_name name then Status.Stopped else Status.Error) m) []
  if names.isEmpty then seeded
  else
    match psOut with
    | some lines => lines.foldl (batchLineUpdate names) seeded
    | none => names.foldl (fun m name => ainsert name Status.Error m) seeded

/-! ## Startup discovery (`src/app/init.rs` lines 97–117) -/

/-- One readable entry of the `containers/` directory as the discovery scan
sees it. -/
structure DirEntry where
  name : String
  isDir : Bool
  hasComposeFile : Bool
deriving DecidableEq, Repr

/-- Model of `get_service_names` (`src/app/init.rs` lines 97–117): `none`
models an unreadable root (`read_dir` error → empty list); otherwise keep
the subdirectories holding a `docker-compose.yml`, sorted by lowercased
name (`sort_by` with the lowercased comparator, modelled by a stable
comparison sort over the same total preorder). -/
def get_service_names (dir : Option (List DirEntry)) : List String :=
  match dir with
  | none => []
  | some entries =>
    ((((entries.filter (fun e => e.isDir)).filter
        (fun e => e.hasComposeFile)).map (fun e => e.name))).insertionSort lowerLe

/-! ## Live log followers (`src/app/logs.rs` lines 50–109) -/

/-- Membership of an effect in a trace, as a computable predicate. -/
def effMem (a : StopEffect) : List StopEffect → Bool
  | [] => false
  | x :: r => if x = a then true else effMem a r

/-- Ordering of two effects in a trace: some occurrence of `a` is strictly
before some occurrence of `b`. -/
def effBefore (a b : StopEffect) : List StopEffect → Bool
  | [] => false
  | x :: r => if x = a then effMem b r else effBefore a b r

/-- Model of the fleet effect of `start_live_log_listeners`
(`src/app/logs.rs` lines 50–109).  The function spawns one listener thread
per service; each thread loops until the project's `compose ps` output
contains `Up` (`psUp`), then spawns `logs -f --tail=100` and stores the
child handle (`spawnOk` is the spawn outcome).  The returned list is the
set of services holding a live follow child once every thread has completed
its first acquire iteration — a reachable schedule, since nothing in the
function consults the UI selection, the log-view focus, or any other
service's follower. -/
def start_live_log_listeners (daemonRunning : Bool) (services : List String)
    (psUp spawnOk : String → Bool) : List String :=
  if !daemonRunning then []
  else services.filter (fun s => psUp s && spawnOk s)

/-! ## Order lemmas for the lexicographic comparison -/

/-- Totality of the lexicographic comparison. -/
theorem lexLeB_total : ∀ a b : List Char, (lexLeB a b || lexLeB b a) = true := by
  intro a
  induction a with
  | nil => intro b; simp [lexLeB]
  | cons x xs ih =>
    intro b
    cases b with
    | nil => simp [lexLeB]
    | cons y ys =>
      by_cases h : x.toNat = y.toNat
      · have e1 : lexLeB (x :: xs) (y :: ys) = lexLeB xs ys := by
          simp only [lexLeB]
          rw [if_pos h]
        have e2 : lexLeB (y :: ys) (x :: xs) = lexLeB ys xs := by
          simp only [lexLeB]
          rw [if_pos h.symm]
        rw [e1, e2]
        exact ih ys
      · have h' : ¬ y.toNat = x.toNat := fun e => h e.symm
        simp only [lexLeB]
        rw [if_neg h, if_neg h']
        rcases Nat.lt_or_ge x.toNat y.toNat with hlt | hge
        · simp [hlt]
        · have hgt : y.toNat < x.toNat := lt_of_le_of_ne hge h'
          simp [hgt]

/-- Transitivity of the lexicographic comparison. -/
theorem lexLeB_trans :
    ∀ a b c : List Char, lexLeB a b = true → lexLeB b c = true → lexLeB a c = true := by
  intro a
  induction a with
  | nil => intro b c _ _; simp [lexLeB]
  | cons x xs ih =>
    intro b c hab hbc
    cases b with
    | nil => simp [lexLeB] at hab
    | cons y ys =>
      cases c with
      | nil => simp [lexLeB] at hbc
      | cons z zs =>
        simp only [lexLeB] at hab hbc ⊢
        by_cases hxy : x.toNat = y.toNat <;> by_cases hyz : y.toNat = z.toNat
        · rw [if_pos hxy] at hab
          rw [if_pos hyz] at hbc
          rw [if_pos (hxy.trans hyz)]
          exact ih ys zs hab hbc
        · rw [if_pos hxy] at hab
          rw [if_neg hyz] at hbc
          rw [if_neg (show ¬ x.toNat = z.toNat by rw [hxy]; exact hyz)]
          simp only [decide_eq_true_eq] at hbc ⊢
          omega
        · rw [if_neg hxy] at hab
          rw [if_pos hyz] at hbc
          rw [if_neg (show ¬ x.toNat = z.toNat by rw [← hyz]; exact hxy)]
          simp only [decide_eq_true_eq] at hab ⊢
          omega
        · rw [if_neg hxy] at hab
          rw [if_neg hyz] at hbc
          simp only [decide_eq_true_eq] at hab hbc
          have hxz : ¬ x.toNat = z.toNat := by omega
          rw [if_neg hxz]
          simp only [decide_eq_true_eq]
          omega

/-! ## Claim theorems -/

/-- C1: evaluation of the embedded `handle_event_line` at the failing
input.  A `health_status: unhealthy` event reaches the
`ends_with("healthy")` test first, and `"unhealthy"` does end with
`"healthy"`, so the listener sets the project to `Running`; the source
branch mapping `unhealthy` to `Error` is unreachable, contradicting the
stated policy (and that branch's own evident intent). -/
theorem C1_unhealthy_event_sets_running :
    handle_event_line (fun _ => none) (fun _ => "")
        "health_status: unhealthy\tproj\tc1\t1"
        [("proj", ⟨Status.Stopped, "", none⟩)] =
      [("proj", ⟨Status.Running, "[event] c1 health_status: unhealthy\n", none⟩)] := by
  decide

/-- C2: if the daemon is probed this tick (first check, expired cooldown,
or it was already considered down) and the probe reports it unreachable,
one `refresh_statuses` pass forces every project to `DaemonNotRunning`
with pull-progress cleared — irrespective of each project's prior status —
and marks the event listener not running. -/
theorem C2_daemon_unreachable_overrides (probe : Bool) (batch : String → Option Status)
    (allStopped : String → Bool) (a : AppRS)
    (hp : a.firstStatusCheck = true ∨ a.daemonProbeCooldownTicks = 0 ∨
      a.dockerDaemonRunning = false)
    (hun : probe = false) :
    (refresh_statuses probe batch allStopped a).services
      = a.services.map (fun s =>
          { s with status := Status.DaemonNotRunning, pullProgress := none })
    ∧ (refresh_statuses probe batch allStopped a).eventListenerRunning = false := by
  have hsp : (a.firstStatusCheck || a.daemonProbeCooldownTicks == 0
      || !a.dockerDaemonRunning) = true := by
    rcases hp with h | h | h <;> simp [h]
  subst hun
  constructor <;> simp [refresh_statuses, hsp]

/-- C2 witness: a concrete one-service fleet previously `Running` with a
stale pull-progress value and an attached listener, on an unreachable
probe. -/
theorem C2_witness :
    (refresh_statuses false (fun _ => none) (fun _ => false)
        ⟨[⟨"cache", Status.Running, some "queued"⟩], false, 0, true, true⟩).services
      = [⟨"cache", Status.DaemonNotRunning, none⟩]
    ∧ (refresh_statuses false (fun _ => none) (fun _ => false)
        ⟨[⟨"cache", Status.Running, some "queued"⟩], false, 0, true, true⟩).eventListenerRunning
      = false := by
  have h := C2_daemon_unreachable_overrides false (fun _ => none) (fun _ => false)
    ⟨[⟨"cache", Status.Running, some "queued"⟩], false, 0, true, true⟩
    (Or.inr (Or.inl rfl)) rfl
  exact ⟨h.1.trans (by decide), h.2⟩

/-- C3 (amended): after the detached up command exits, `Running` is set
only when the fresh probe observes `Running`; a non-zero exit or a spawn
error sets `Error` and appends a diagnostic line; but a successful exit
whose fresh probe does not confirm `Running` leaves the status at
`Starting` with no diagnostic (the source has no else branch there),
deferring to the reconciler. -/
theorem C3_running_only_if_probe_confirms (upStream e : String) (probe2 : Status)
    (s : WorkerSt) :
    ((up_phase (Except.ok true) upStream probe2 s).status
        = if probe2 = Status.Running then Status.Running else Status.Starting)
    ∧ (up_phase (Except.ok true) upStream probe2 s).logs
        = s.logs ++ "Up output:\n" ++ upStream
    ∧ (up_phase (Except.ok false) upStream probe2 s).status = Status.Error
    ∧ (up_phase (Except.ok false) upStream probe2 s).logs
        = s.logs ++ "Up output:\n" ++ upStream
          ++ "Up failed: command exited with non-zero status\n"
    ∧ (up_phase (Except.error e) upStream probe2 s).status = Status.Error
    ∧ (up_phase (Except.error e) upStream probe2 s).logs
        = s.logs ++ "Up failed: " ++ e ++ "\n" := by
  refine ⟨?_, ?_, ?_, ?_, ?_, ?_⟩
  · by_cases hp : probe2 = Status.Running <;> simp [up_phase, hp]
  · by_cases hp : probe2 = Status.Running <;> simp [up_phase, hp]
  · simp [up_phase]
  · simp [up_phase]
  · simp [up_phase]
  · simp [up_phase]

/-- C3 counterexample: a successful up exit whose fresh probe observes
`Stopped` (inconclusive) leaves the status `Starting` — not `Error` — and
appends no diagnostic, where the claim required `Error` with a
diagnostic. -/
theorem C3_cex_inconclusive_probe_is_not_error :
    (up_phase (Except.ok true) "" Status.Stopped ⟨Status.Pulling, "", none⟩).status
      = Status.Starting
    ∧ ¬ (up_phase (Except.ok true) "" Status.Stopped ⟨Status.Pulling, "", none⟩).status
      = Status.Error
    ∧ strContains
        (up_phase (Except.ok true) "" Status.Stopped ⟨Status.Pulling, "", none⟩).logs
        "Up failed" = false := by
  decide

/-- C4 (amended): a live-log follow subprocess is held for exactly those
projects whose compose `ps` output showed `Up` and whose follow spawn
succeeded, provided the daemon was running when the listeners started; the
UI selection and the log-view focus play no role. -/
theorem C4_followers_characterized (d : Bool) (svcs : List String)
    (psUp spawnOk : String → Bool) (s : String) :
    s ∈ start_live_log_listeners d svcs psUp spawnOk ↔
      d = true ∧ s ∈ svcs ∧ psUp s = true ∧ spawnOk s = true := by
  cases d <;> simp [start_live_log_listeners, and_assoc]

/-- C4 counterexample: with two projects observed `Up`, two follow
subprocesses are held simultaneously, violating the fleet-wide at-most-one
invariant as stated. -/
theorem C4_cex_two_followers_at_once :
    (start_live_log_listeners true ["api", "cache"]
        (fun _ => true) (fun _ => true)).length = 2
    ∧ ¬ (start_live_log_listeners true ["api", "cache"]
        (fun _ => true) (fun _ => true)).length ≤ 1 := by
  decide

/-- C7 (amended): when a stop request passes all guards, the live-log
buffer is cleared and the follow subprocess (when present) is killed
strictly before the down worker is spawned; but the child is never waited
for — no wait step occurs in `stop_service`. -/
theorem C7_stop_clears_and_kills_before_down (name : String) (cached : Status) (fp : Bool)
    (hc : ¬ (cached = Status.Pulling ∨ cached = Status.Starting ∨
      cached = Status.Stopping)) :
    effBefore StopEffect.clearLiveLogs StopEffect.spawnDownWorker
        (stop_service name true true Status.Running cached fp) = true
    ∧ (fp = true →
        effBefore StopEffect.killFollowChild StopEffect.spawnDownWorker
          (stop_service name true true Status.Running cached fp) = true)
    ∧ effMem StopEffect.waitFollowChild
        (stop_service name true true Status.Running cached fp) = false := by
  have htr : stop_service name true true Status.Running cached fp
      = [StopEffect.setStatus Status.Stopping, StopEffect.setPullProgress none,
          StopEffect.clearLiveLogs]
        ++ (if fp then [StopEffect.killFollowChild] else [])
        ++ [StopEffect.spawnDownWorker,
            StopEffect.toast ToastState.Success ("Stopping " ++ name)] := by
    simp [stop_service, hc]
  cases fp <;> simp [htr, effBefore, effMem]

/-- C7 counterexample: on a fully eligible stop with a live follow child,
the kill and the down spawn both occur but no wait step ever does —
the claim's "killed and waited for" does not hold. -/
theorem C7_cex_child_never_waited :
    effMem StopEffect.killFollowChild
        (stop_service "cache" true true Status.Running Status.Running true) = true
    ∧ effMem StopEffect.spawnDownWorker
        (stop_service "cache" true true Status.Running Status.Running true) = true
    ∧ effMem StopEffect.waitFollowChild
        (stop_service "cache" true true Status.Running Status.Running true) = false := by
  decide

/-- C7 witness: the amended ordering facts evaluated on the concrete
eligible stop. -/
theorem C7_witness :
    effBefore StopEffect.clearLiveLogs StopEffect.spawnDownWorker
        (stop_service "cache" true true Status.Running Status.Running true) = true
    ∧ effBefore StopEffect.killFollowChild StopEffect.spawnDownWorker
        (stop_service "cache" true true Status.Running Status.Running true) = true := by
  have h := C7_stop_clears_and_kills_before_down "cache" Status.Running true (by decide)
  exact ⟨h.1, h.2.1 rfl⟩

/-- C8: with the control service active and the daemon responding, a start
request is rejected with a warning toast, spawns no worker subprocess, and
leaves the status, pull-progress, and logs cells unchanged, whenever the
fresh probe observes `Running` or the cached status is mid-transition
(`Pulling`/`Starting`/`Stopping`). -/
theorem C8_start_rejected_when_running_or_busy (name : String) (probe cached : Status)
    (pp : Option String) (logs0 : String)
    (h : probe = Status.Running ∨ cached = Status.Pulling ∨ cached = Status.Starting
      ∨ cached = Status.Stopping) :
    (start_service name true true probe cached pp logs0).toast.map Prod.fst
        = some ToastState.Warning
    ∧ (start_service name true true probe cached pp logs0).spawned = false
    ∧ (start_service name true true probe cached pp logs0).status = cached
    ∧ (start_service name true true probe cached pp logs0).pullProgress = pp
    ∧ (start_service name true true probe cached pp logs0).logs = logs0 := by
  by_cases hp : probe = Status.Running
  · simp [start_service, hp]
  · have hb : cached = Status.Pulling ∨ cached = Status.Starting ∨
        cached = Status.Stopping := by
      rcases h with h | h
      · exact absurd h hp
      · exact h
    simp [start_service, hp, hb]

/-- C8 witness: the rejection facts evaluated at a freshly probed `Running`
project whose cached status is `Stopped`. -/
theorem C8_witness :
    (start_service "cache" true true Status.Running Status.Stopped none "log").toast.map
        Prod.fst = some ToastState.Warning
    ∧ (start_service "cache" true true Status.Running Status.Stopped none "log").spawned
        = false
    ∧ (start_service "cache" true true Status.Running Status.Stopped none "log").status
        = Status.Stopped
    ∧ (start_service "cache" true true Status.Running Status.Stopped none
        "log").pullProgress = none
    ∧ (start_service "cache" true true Status.Running Status.Stopped none "log").logs
        = "log" :=
  C8_start_rejected_when_running_or_busy "cache" Status.Running Status.Stopped none "log"
    (Or.inl rfl)

/-! ## Drain lemmas (`src/app/daemon.rs`) -/

/-- Totality of the drain order. -/
theorem strLe_total : ∀ a b : String, strLe a b ∨ strLe b a := by
  intro a b
  have h := lexLeB_total a.data b.data
  cases ha : lexLeB a.data b.data with
  | true => exact Or.inl ha
  | false =>
    rw [ha] at h
    simp at h
    exact Or.inr h

/-- Transitivity of the drain order. -/
theorem strLe_trans : ∀ a b c : String, strLe a b → strLe b c → strLe a c :=
  fun a b c => lexLeB_trans a.data b.data c.data

/-- The drain worklist is sorted. -/
theorem servicesToStop_sorted (svcs : List (String × Status)) :
    List.Sorted strLe (servicesToStop svcs) := by
  unfold servicesToStop
  exact @List.sorted_insertionSort _ strLe _ ⟨strLe_total⟩ ⟨strLe_trans⟩ _

/-- The drain worklist holds exactly the running/transitional services. -/
theorem servicesToStop_mem (svcs : List (String × Status)) (n : String) :
    n ∈ servicesToStop svcs ↔ ∃ st, (n, st) ∈ svcs ∧ drainEligible st = true := by
  unfold servicesToStop
  rw [List.mem_insertionSort]
  simp only [List.mem_map, List.mem_filter]
  constructor
  · rintro ⟨⟨m, st⟩, ⟨hmem, helig⟩, rfl⟩
    exact ⟨st, hmem, helig⟩
  · rintro ⟨st, hmem, helig⟩
    exact ⟨(n, st), ⟨hmem, helig⟩, rfl⟩

/-- The down commands issued by the drain loop are an initial segment of
its worklist. -/
theorem drainGo_issued_initial (down : String → Except String Bool) :
    ∀ l : List String, ∃ rest, l = (drainGo down l).1 ++ rest := by
  intro l
  induction l with
  | nil => exact ⟨[], rfl⟩
  | cons n rest ih =>
    cases hd : down n with
    | ok b =>
      cases b with
      | true =>
        obtain ⟨r2, hr2⟩ := ih
        refine ⟨r2, ?_⟩
        simp only [drainGo, hd]
        exact congrArg (n :: ·) hr2
      | false => exact ⟨rest, by simp [drainGo, hd]⟩
    | error m => exact ⟨rest, by simp [drainGo, hd]⟩

/-- A drain failure is attributable to a worklist element, and the error
message names it. -/
theorem drainGo_error_names (down : String → Except String Bool) :
    ∀ (l : List String) (e : String), (drainGo down l).2 = some e →
      ∃ n, n ∈ l ∧ ((down n = Except.ok false ∧ e = "Failed to stop service " ++ n)
        ∨ ∃ m, down n = Except.error m
            ∧ e = "Error stopping service " ++ n ++ ": " ++ m) := by
  intro l
  induction l with
  | nil => intro e h; simp [drainGo] at h
  | cons n rest ih =>
    intro e h
    cases hd : down n with
    | ok b =>
      cases b with
      | true =>
        simp only [drainGo, hd] at h
        obtain ⟨m, hm, hcase⟩ := ih e h
        exact ⟨m, List.mem_cons_of_mem _ hm, hcase⟩
      | false =>
        simp only [drainGo, hd, Option.some.injEq] at h
        exact ⟨n, List.mem_cons_self _ _, Or.inl ⟨hd, h.symm⟩⟩
    | error m =>
      simp only [drainGo, hd, Option.some.injEq] at h
      exact ⟨n, List.mem_cons_self _ _, Or.inr ⟨m, hd, h.symm⟩⟩

/-- A `stop_all_services` error comes from the drain loop. -/
theorem stop_all_services_error_eq (svcs : List (String × Status))
    (down : String → Except String Bool) (e : String)
    (he : (stop_all_services svcs down).result = Except.error e) :
    (drainGo down (servicesToStop svcs)).2 = some e := by
  unfold stop_all_services at he
  by_cases hemp : (servicesToStop svcs).isEmpty
  · rw [if_pos hemp] at he
    simp at he
  · rw [if_neg hemp] at he
    cases hgo : (drainGo down (servicesToStop svcs)).2 with
    | none => rw [hgo] at he; simp at he
    | some e2 =>
      rw [hgo] at he
      simp only [Except.error.injEq] at he
      rw [he]

/-- The down commands issued by `stop_all_services` are an initial segment
of the sorted worklist. -/
theorem stop_all_services_downs_initial (svcs : List (String × Status))
    (down : String → Except String Bool) :
    ∃ rest, servicesToStop svcs = (stop_all_services svcs down).downsIssued ++ rest := by
  unfold stop_all_services
  by_cases hemp : (servicesToStop svcs).isEmpty
  · rw [if_pos hemp]
    exact ⟨servicesToStop svcs, rfl⟩
  · rw [if_neg hemp]
    obtain ⟨rest, hr⟩ := drainGo_issued_initial down (servicesToStop svcs)
    cases hgo : (drainGo down (servicesToStop svcs)).2 <;> exact ⟨rest, hr⟩

/-- C5: daemon stop and restart drain first: the worklist is exactly the
`Running`/transitional projects in sorted order, the down commands are
issued one at a time along that order, and when any drain step fails both
daemon actions stop without invoking the privileged command, reporting an
error that names the failing project. -/
theorem C5_drain_failure_blocks_privileged (svcs : List (String × Status))
    (down : String → Except String Bool) (privResult : Except String Unit) (e : String)
    (he : (stop_all_services svcs down).result = Except.error e) :
    List.Sorted strLe (servicesToStop svcs)
    ∧ (∀ n, n ∈ servicesToStop svcs ↔ ∃ st, (n, st) ∈ svcs ∧ drainEligible st = true)
    ∧ (∃ rest, servicesToStop svcs = (stop_all_services svcs down).downsIssued ++ rest)
    ∧ (stop_daemon false svcs down privResult).privilegedInvoked = false
    ∧ (stop_daemon false svcs down privResult).toast
        = some (ToastState.Error, "Failed to stop services: " ++ e)
    ∧ (restart_daemon false svcs down privResult).privilegedInvoked = false
    ∧ (restart_daemon false svcs down privResult).toast
        = some (ToastState.Error, "Failed to stop services: " ++ e)
    ∧ ∃ n, n ∈ servicesToStop svcs
        ∧ ((down n = Except.ok false ∧ e = "Failed to stop service " ++ n)
          ∨ ∃ m, down n = Except.error m
              ∧ e = "Error stopping service " ++ n ++ ": " ++ m) := by
  have hgo := stop_all_services_error_eq svcs down e he
  obtain ⟨n, hn, hcase⟩ := drainGo_error_names down (servicesToStop svcs) e hgo
  refine ⟨servicesToStop_sorted svcs, fun n => servicesToStop_mem svcs n,
    stop_all_services_downs_initial svcs down, ?_, ?_, ?_, ?_, ⟨n, hn, hcase⟩⟩
  · simp [stop_daemon, he]
  · simp [stop_daemon, he]
  · simp [restart_daemon, he]
  · simp [restart_daemon, he]

/-- C5 witness: a two-service fleet whose drain fails on the
alphabetically first project. -/
theorem C5_witness :
    (stop_daemon false [("b", Status.Running), ("a", Status.Starting)]
        (fun n => if n = "a" then Except.ok false else Except.ok true)
        (Except.ok ())).privilegedInvoked = false
    ∧ (stop_daemon false [("b", Status.Running), ("a", Status.Starting)]
        (fun n => if n = "a" then Except.ok false else Except.ok true)
        (Except.ok ())).toast
      = some (ToastState.Error, "Failed to stop services: Failed to stop service a")
    ∧ (restart_daemon false [("b", Status.Running), ("a", Status.Starting)]
        (fun n => if n = "a" then Except.ok false else Except.ok true)
        (Except.ok ())).privilegedInvoked = false := by
  have h := C5_drain_failure_blocks_privileged
    [("b", Status.Running), ("a", Status.Starting)]
    (fun n => if n = "a" then Except.ok false else Except.ok true)
    (Except.ok ()) "Failed to stop service a" (by rfl)
  exact ⟨h.2.2.2.1, (h.2.2.2.2.1).trans (by decide), h.2.2.2.2.2.1⟩

/-! ## Batch-status lemmas (`src/docker/client.rs`) -/

/-- Looking up the key just inserted. -/
theorem alookup_ainsert_self {α : Type} (k : String) (v : α) (m : List (String × α)) :
    alookup k (ainsert k v m) = some v := by
  induction m with
  | nil => simp [ainsert, alookup]
  | cons p rest ih =>
    rcases p with ⟨k2, v2⟩
    by_cases h : k2 = k
    · subst h
      simp [ainsert, alookup]
    · simp [ainsert, alookup, h, ih]

/-- Inserting a different key leaves a lookup unchanged. -/
theorem alookup_ainsert_other {α : Type} (k k2 : String) (v : α) (m : List (String × α))
    (h : k2 ≠ k) : alookup k (ainsert k2 v m) = alookup k m := by
  induction m with
  | nil => simp [ainsert, alookup, h]
  | cons p rest ih =>
    rcases p with ⟨k3, v3⟩
    by_cases h3 : k3 = k2
    · subst h3
      by_cases h4 : k3 = k
      · exact absurd h4 h
      · simp [ainsert, alookup, h, h4]
    · by_cases h4 : k3 = k
      · subst h4
        simp [ainsert, alookup, h3]
      · simp [ainsert, alookup, h3, h4, ih]

/-- Lookup after folding a keyed insert over a name list. -/
theorem foldl_ainsert_lookup {α : Type} (f : String → α) (names : List String)
    (name : String) :
    ∀ m : List (String × α),
      alookup name (names.foldl (fun m n => ainsert n (f n) m) m)
        = if name ∈ names then some (f name) else alookup name m := by
  induction names with
  | nil => intro m; simp
  | cons n rest ih =>
    intro m
    simp only [List.foldl_cons]
    rw [ih]
    by_cases hmem : name ∈ rest
    · simp [hmem, List.mem_cons]
    · by_cases heq : name = n
      · subst heq
        simp [hmem, alookup_ainsert_self]
      · have hne : ¬ name ∈ n :: rest := by
          simp [List.mem_cons, heq, hmem]
        simp only [hmem, if_neg hmem, if_neg hne]
        exact alookup_ainsert_other name n (f n) m (fun e => heq e.symm)

/-- A batch output line whose project label is not `name` cannot change
`name`'s status. -/
theorem batchLineUpdate_preserves (names : List String) (name : String) (line : String)
    (m : List (String × Status)) (h : thirdField line ≠ some name) :
    alookup name (batchLineUpdate names m line) = alookup name m := by
  unfold batchLineUpdate
  unfold thirdField at h
  split
  · rename_i a statusStr projectName rest heq
    rw [heq] at h
    have h2 : (⟨projectName⟩ : String) ≠ name := fun e => h (congrArg some e)
    by_cases hc : namesContain names ⟨projectName⟩
    · rw [if_pos hc]
      exact alookup_ainsert_other name ⟨projectName⟩ _ m h2
    · rw [if_neg hc]
  · rfl

/-- Folding all batch output lines, none of which carries `name` as its
project label, preserves `name`'s status. -/
theorem batchLines_preserve (names : List String) (name : String) :
    ∀ (lines : List String) (m : List (String × Status)),
      (∀ line ∈ lines, thirdField line ≠ some name) →
      alookup name (lines.foldl (batchLineUpdate names) m) = alookup name m := by
  intro lines
  induction lines with
  | nil => intro m _; rfl
  | cons line rest ih =>
    intro m hno
    simp only [List.foldl_cons]
    rw [ih (batchLineUpdate names m line) (fun l hl => hno l (List.mem_cons_of_mem _ hl))]
    exact batchLineUpdate_preserves names name line m (hno line (List.mem_cons_self _ _))

/-- C9 (amended): an invalid project name is seeded `Error` by the batch
query without any per-project subprocess, and that `Error` persists —
both when the single batch `docker ps` call fails and when its output
contains no line whose project label equals that name; a line carrying
exactly that label, however, would overwrite it, since the overwrite guard
checks only membership in the name list. -/
theorem C9_invalid_name_error_persists (names lines : List String) (name : String)
    (hinv : validate_service_name name = false) (hmem : name ∈ names)
    (hnoline : ∀ line ∈ lines, thirdField line ≠ some name) :
    alookup name (get_batch_statuses names (some lines)) = some Status.Error
    ∧ alookup name (get_batch_statuses names none) = some Status.Error := by
  have hne : ¬ names.isEmpty := by
    cases names with
    | nil => cases hmem
    | cons a l => simp
  have hseed : alookup name
      (names.foldl (fun m n =>
        ainsert n (if validate_service_name n then Status.Stopped else Status.Error) m) [])
      = some Status.Error := by
    have h := foldl_ainsert_lookup
      (fun n => if validate_service_name n then Status.Stopped else Status.Error)
      names name []
    rw [if_pos hmem] at h
    rw [h, hinv]
    simp
  constructor
  · show alookup name (get_batch_statuses names (some lines)) = some Status.Error
    unfold get_batch_statuses
    rw [if_neg hne]
    rw [batchLines_preserve names name lines _ hnoline]
    exact hseed
  · show alookup name (get_batch_statuses names none) = some Status.Error
    unfold get_batch_statuses
    rw [if_neg hne]
    have h := foldl_ainsert_lookup (fun _ => Status.Error) names name
      (names.foldl (fun m n =>
        ainsert n (if validate_service_name n then Status.Stopped else Status.Error) m) [])
    rw [if_pos hmem] at h
    exact h

/-- C9 witness: the invalid name `a.b` stays `Error` both on a failed
batch call and on output lines that do not mention it. -/
theorem C9_witness :
    alookup "a.b" (get_batch_statuses ["a.b"] (some ["c\tUp 2 hours\tother"]))
      = some Status.Error
    ∧ alookup "a.b" (get_batch_statuses ["a.b"] none) = some Status.Error :=
  C9_invalid_name_error_persists ["a.b"] ["c\tUp 2 hours\tother"] "a.b"
    (by decide) (by decide) (by decide)

/-- C9 counterexample: the claim's "the Error value is not replaced by any
other status during that query" fails — a batch output line whose project
label equals the invalid name overwrites the seeded `Error` with the parsed
status. -/
theorem C9_cex_error_overwritten_by_matching_label :
    validate_service_name "a.b" = false
    ∧ alookup "a.b" (get_batch_statuses ["a.b"] (some ["c\tUp 2 hours\ta.b"]))
      = some Status.Running := by
  decide

/-! ## Discovery lemmas (`src/app/init.rs`) -/

/-- Totality of the case-insensitive discovery order. -/
theorem lowerLe_total : ∀ a b : String, lowerLe a b ∨ lowerLe b a := by
  intro a b
  have h := lexLeB_total (toLowerStr a).data (toLowerStr b).data
  cases ha : lexLeB (toLowerStr a).data (toLowerStr b).data with
  | true => exact Or.inl ha
  | false =>
    rw [ha] at h
    simp at h
    exact Or.inr h

/-- Transitivity of the case-insensitive discovery order. -/
theorem lowerLe_trans : ∀ a b c : String, lowerLe a b → lowerLe b c → lowerLe a c :=
  fun a b c => lexLeB_trans (toLowerStr a).data (toLowerStr b).data (toLowerStr c).data

/-- C10: the discovery scan returns exactly the names of the immediate
subdirectories holding a `docker-compose.yml`, sorted by lowercased-name
comparison, and an unreadable root yields the empty list. -/
theorem C10_discovery_names (entries : List DirEntry) (n : String) :
    get_service_names none = []
    ∧ (n ∈ get_service_names (some entries) ↔
        ∃ e ∈ entries, e.isDir = true ∧ e.hasComposeFile = true ∧ e.name = n)
    ∧ List.Sorted lowerLe (get_service_names (some entries)) := by
  refine ⟨rfl, ?_, ?_⟩
  · unfold get_service_names
    rw [List.mem_insertionSort]
    simp only [List.mem_map, List.mem_filter]
    constructor
    · rintro ⟨e, ⟨⟨he, hd⟩, hc⟩, rfl⟩
      exact ⟨e, he, hd, hc, rfl⟩
    · rintro ⟨e, he, hd, hc, rfl⟩
      exact ⟨e, ⟨⟨he, hd⟩, hc⟩, rfl⟩
  · unfold get_service_names
    exact @List.sorted_insertionSort _ lowerLe _ ⟨lowerLe_total⟩ ⟨lowerLe_trans⟩ _

/-- C6: concrete behaviour of the progress extractor and size parser: the
size ratio `12.5MB/25MB` yields 50% (labelled by the phase keyword present,
defaulting to Downloading); `Pull complete` yields the phase label; the
size parser maps `1KiB` to 1024 and `1MB` to 1,000,000 bytes with units
none/`b` ×1, `kb`/`mb`/`gb`/`tb` decimal and `kib`/`mib`/`gib`/`tib`
binary; and the ratio percentage — round(done/total·100) — is clamped to
[0,100] (the lower bound holds by construction over `Nat`). -/
theorem C6_progress_extractor_values :
    extract_pull_progress "12.5MB/25MB" = some "Downloading 50%"
    ∧ extract_pull_progress "Pull complete" = some "Pull complete"
    ∧ parse_size_to_bytes "1KiB".data = some ⟨1024, 1⟩
    ∧ parse_size_to_bytes "1MB".data = some ⟨1000000, 1⟩
    ∧ parse_size_to_bytes "1".data = some ⟨1, 1⟩
    ∧ parse_size_to_bytes "1b".data = some ⟨1, 1⟩
    ∧ parse_size_to_bytes "1kb".data = some ⟨1000, 1⟩
    ∧ parse_size_to_bytes "1gb".data = some ⟨1000000000, 1⟩
    ∧ parse_size_to_bytes "1tb".data = some ⟨1000000000000, 1⟩
    ∧ parse_size_to_bytes "1kib".data = some ⟨1024, 1⟩
    ∧ parse_size_to_bytes "1mib".data = some ⟨1048576, 1⟩
    ∧ parse_size_to_bytes "1gib".data = some ⟨1073741824, 1⟩
    ∧ parse_size_to_bytes "1tib".data = some ⟨1099511627776, 1⟩
    ∧ extract_pull_progress "Extracting 12.5MB/25MB" = some "Extracting 50%"
    ∧ extract_pull_progress "abc: Downloading [=>  ]  12.5MB/25MB"
        = some "Downloading 50%"
    ∧ (∀ d t : SizeQ, ratioPercent d t ≤ 100) := by
  refine ⟨by decide, by decide, by decide, by decide, by decide, by decide, by decide,
    by decide, by decide, by decide, by decide, by decide, by decide, by decide,
    by decide, fun d t => Nat.min_le_left 100 _⟩

end DockerTui
